import Mathlib

/-!
Verification of the devir supervision engine and daemon
(repository `productdevbook/devir`, Go).

The definitions below are a shallow embedding of the Go source:
`internal/runner/runner.go`, `internal/daemon/daemon.go`,
`internal/daemon/protocol.go` and `internal/config/config.go`.
Strings are modelled as Lean `String` (lists of Unicode code points,
matching Go's `for range` decoding of valid UTF-8), machine integers as
`Nat`/`Int` with explicit `% 2^32` where Go wraps, fallible operations
as `Option`/`Except`, and the effectful parts (process spawning, the
socket, sleeps) as explicit outcome parameters and effect traces.
-/

namespace Devir

/-! ### Go string primitives used by the runner

`goIsSpace` models Go's `unicode.IsSpace`: the Unicode White_Space
property (this is the exact code-point set of Go's `unicode.White_Space`
range table). -/

def goIsSpace (c : Char) : Bool :=
  (0x9 ≤ c.toNat && c.toNat ≤ 0xD) || c.toNat = 0x20 || c.toNat = 0x85 ||
  c.toNat = 0xA0 || c.toNat = 0x1680 ||
  (0x2000 ≤ c.toNat && c.toNat ≤ 0x200A) ||
  c.toNat = 0x2028 || c.toNat = 0x2029 || c.toNat = 0x202F ||
  c.toNat = 0x205F || c.toNat = 0x3000

/-- Models Go `strings.TrimSpace s` (trim leading and trailing
White_Space code points). -/
def goTrimSpace (s : String) : String :=
  String.mk (((((s.data.dropWhile goIsSpace).reverse).dropWhile goIsSpace).reverse))

/-- Accumulator-based splitter behind `goFields`; `cur` holds the
current field reversed. -/
def fieldsGo (cur : List Char) : List Char → List String
  | [] => if cur = [] then [] else [String.mk cur.reverse]
  | c :: rest =>
    if goIsSpace c then
      if cur = [] then fieldsGo [] rest
      else String.mk cur.reverse :: fieldsGo [] rest
    else fieldsGo (c :: cur) rest

/-- Models Go `strings.Fields s`: split around runs of white space,
no empty fields. -/
def goFields (s : String) : List String :=
  fieldsGo [] s.data

/-- Accumulator-based splitter behind `goSplitNewline`. -/
def splitNLGo (cur : List Char) : List Char → List String
  | [] => [String.mk cur.reverse]
  | c :: rest =>
    if c = '\n' then String.mk cur.reverse :: splitNLGo [] rest
    else splitNLGo (c :: cur) rest

/-- Models Go `strings.Split s "\n"`. -/
def goSplitNewline (s : String) : List String :=
  splitNLGo [] s.data

/-- Models `strings.ReplaceAll text "\r" ""` from `Runner.processLine`
(runner.go line 629): every carriage-return code point is removed. -/
def removeCR (s : String) : String :=
  String.mk (s.data.filter (fun c => c ≠ '\r'))

/-! ### ANSI stripping (runner.go lines 625-628)

`ansiPattern = regexp.MustCompile("\x1b\\[[0-9;]*[a-zA-Z]")` and
`ansiPattern.ReplaceAllString(text, "")`.  Go's `ReplaceAllString`
replaces, in a single left-to-right pass over the input, every
leftmost non-overlapping match by the empty string; it does not rescan
the output.  A match starts at a position exactly when that position
holds ESC followed by `[`, then a (possibly empty) run of digits and
semicolons whose maximal extent is followed by an ASCII letter. -/

def isAnsiMid (c : Char) : Bool :=
  ('0' ≤ c && c ≤ '9') || c = ';'

/-- Decides whether `ansiPattern` matches at the front of the list. -/
def ansiMatchFront (l : List Char) : Bool :=
  match l with
  | '\x1b' :: '[' :: rest =>
    match rest.dropWhile isAnsiMid with
    | c :: _ => c.isAlpha
    | [] => false
  | _ => false

/-- Decides whether the string contains a match of `ansiPattern`
anywhere. -/
def containsAnsiSeq : List Char → Bool
  | [] => false
  | c :: rest => ansiMatchFront (c :: rest) || containsAnsiSeq rest

/-- Single left-to-right pass removing each leftmost `ansiPattern`
match, exactly as `ReplaceAllString(text, "")` does.  When the two-byte
lead `ESC [` is present but the digit-semicolon run is not closed by an
ASCII letter there is no match starting at the ESC (and none can start
inside the run, since a match must start with ESC), so the ESC is kept
and scanning resumes at the `[`.  Recursion is by a fuel bound; every
recursive call is on a strictly shorter list, so fuel equal to the
input length never runs out. -/
def stripAnsiFuel : Nat → List Char → List Char
  | 0, l => l
  | _ + 1, [] => []
  | fuel + 1, '\x1b' :: '[' :: rest =>
    match rest.dropWhile isAnsiMid with
    | c :: rest' =>
      if c.isAlpha then
        stripAnsiFuel fuel rest'
      else
        '\x1b' :: stripAnsiFuel fuel ('[' :: rest)
    | [] => '\x1b' :: stripAnsiFuel fuel ('[' :: rest)
  | fuel + 1, c :: rest => c :: stripAnsiFuel fuel rest

/-- Models `ansiPattern.ReplaceAllString(text, "")`. -/
def stripAnsi (s : String) : String :=
  String.mk (stripAnsiFuel s.data.length s.data)

/-- Sanitized form of a raw output line: ANSI-strip, remove `\r`,
trim white space — runner.go lines 628-630. -/
def sanitizeText (text : String) : String :=
  goTrimSpace (removeCR (stripAnsi text))

/-! ### The per-service log ring buffer (runner.go lines 664-671)

```
state.Logs = append(state.Logs, line)
if len(state.Logs) > 1000 {
    state.Logs = state.Logs[len(state.Logs)-1000:]
}
```
-/

/-- Log line as stored in `ServiceState.Logs` (types.go `LogLine`);
the timestamp is an abstract `Nat` clock value. -/
structure LogLine where
  service : String
  text : String
  timestamp : Nat
  isError : Bool
deriving DecidableEq, Repr

/-- Appends one line to the buffer and evicts from the front down to
1000 entries, exactly as runner.go lines 666-669. -/
def appendCapped (logs : List LogLine) (l : LogLine) : List LogLine :=
  let logs' := logs ++ [l]
  if logs'.length > 1000 then logs'.drop (logs'.length - 1000) else logs'

/-! ### Line classification and processLine (runner.go lines 625-690) -/

/-- Models Go `strings.Contains s sub` on decoded code points. -/
def listHasSub (pat : List Char) : List Char → Bool
  | [] => pat.isEmpty
  | c :: rest => pat.isPrefixOf (c :: rest) || listHasSub pat rest

/-- Models Go `strings.Contains`. -/
def strContains (s pat : String) : Bool :=
  listHasSub pat.data s.data

/-- ASCII lower-casing of one character. -/
def asciiLower (c : Char) : Char :=
  if 'A' ≤ c && c ≤ 'Z' then Char.ofNat (c.toNat + 32) else c

/-- ASCII lower-casing; Go's `strings.ToLower` agrees on all ASCII
input, and every comparison below involves only ASCII letters. -/
def strToLower (s : String) : String :=
  String.mk (s.data.map asciiLower)

/-- Severity classification of a sanitized line, runner.go lines
643-651. -/
def computeLevel (text : String) (isError : Bool) : String :=
  let lower := strToLower text
  if strContains lower "error" || strContains lower "fail" || isError then "error"
  else if strContains lower "warn" then "warn"
  else if strContains lower "debug" then "debug"
  else "info"

/-- Structured broadcast entry (types.go `LogEntry`). -/
structure LogEntry where
  time : Nat
  level : String
  service : String
  message : String
deriving DecidableEq, Repr

/-- The drop/keep decision and the line that `processLine` stores and
broadcasts, runner.go lines 627-658: sanitize, drop if empty, drop if
the exclude regex matches, drop if an include filter is set and does
not match.  The compiled regexes are modelled as their boolean
`MatchString` functions. -/
def exclDrops (excl : Option (String → Bool)) (t : String) : Bool :=
  match excl with
  | some e => e t
  | none => false

/-- Line 639-641: `if r.filter != nil && !r.filter.MatchString(text)`. -/
def filtDrops (filt : Option (String → Bool)) (t : String) : Bool :=
  match filt with
  | some f => !(f t)
  | none => false

def storedLine (excl filt : Option (String → Bool))
    (service text : String) (isError : Bool) (now : Nat) : Option LogLine :=
  let t := sanitizeText text
  if t = "" then none
  else if exclDrops excl t then none
  else if filtDrops filt t then none
  else some ⟨service, t, now, isError⟩

/-- Models `Runner.processLine` for one service's buffer: returns the
updated ring buffer together with the line pushed onto the broadcast
path (`LogEntryChan`/`LogChan`), if any.  The non-blocking channel
send's drop-on-full policy concerns the queue, not the line content,
and is not modelled here. -/
def processLine (excl filt : Option (String → Bool)) (logs : List LogLine)
    (service text : String) (isError : Bool) (now : Nat) :
    List LogLine × Option LogLine :=
  match storedLine excl filt service text isError now with
  | none => (logs, none)
  | some l => (appendCapped logs l, some l)

/-- The `LogEntry` pushed onto `LogEntryChan` in TUI mode (runner.go
lines 673-683) for a kept line. -/
def broadcastEntry (l : LogLine) : LogEntry :=
  ⟨l.timestamp, computeLevel l.text l.isError, l.service, l.text⟩

/-- Folds `processLine` over a sequence of raw `(text, isError, now)`
inputs for one service, tracking only the ring buffer. -/
def runLines (excl filt : Option (String → Bool)) (service : String)
    (logs : List LogLine) (inputs : List (String × Bool × Nat)) : List LogLine :=
  inputs.foldl
    (fun lg i => (processLine excl filt lg service i.1 i.2.1 i.2.2).1) logs

/-! ### Service configuration and state (config.go, runner.go) -/

/-- Models `config.ServiceType` (config.go): `""`, `"service"`,
`"oneshot"`, `"interval"`, `"http"`. -/
inductive ServiceType where
  | dflt
  | service
  | oneshot
  | interval
  | http
deriving DecidableEq, Repr

/-- Wire string of a service type. -/
def typeStr : ServiceType → String
  | .dflt => ""
  | .service => "service"
  | .oneshot => "oneshot"
  | .interval => "interval"
  | .http => "http"

/-- Models `Service.GetEffectiveType` (config.go). -/
def getEffectiveType (t : ServiceType) : ServiceType :=
  if t = .dflt then .service else t

/-- Models `config.Service`.  `interval` is a duration in an abstract
time unit. -/
structure Service where
  dir : String
  cmd : String
  port : Nat
  color : String
  icon : String
  type : ServiceType
  interval : Nat
  url : String
  method : String
  body : String
  headers : List String
deriving DecidableEq, Repr

/-- Models `types.ServiceStatus` (types.go). -/
inductive Status where
  | stopped
  | running
  | completed
  | failed
  | waiting
deriving DecidableEq, Repr

/-- Wire string of a status. -/
def statusStr : Status → String
  | .stopped => "stopped"
  | .running => "running"
  | .completed => "completed"
  | .failed => "failed"
  | .waiting => "waiting"

/-- Models `runner.ServiceState` (runner.go lines 22-38): the mutable
per-service record.  The live `*exec.Cmd` handle, ticker and stop
channel are runtime resources and are represented by the outcome
parameters of the transition functions below; timestamps are abstract
`Nat` clock values with the Go zero time as 0. -/
structure ServiceState where
  name : String
  service : Service
  running : Bool
  logs : List LogLine
  status : Status
  lastRun : Nat
  nextRun : Nat
  exitCode : Int
  runCount : Nat
deriving DecidableEq, Repr

/-- Initial state created by `runner.New` (runner.go lines 73-83). -/
def initState (name : String) (svc : Service) : ServiceState :=
  { name := name
    service := svc
    running := false
    logs := []
    status := .stopped
    lastRun := 0
    nextRun := 0
    exitCode := 0
    runCount := 0 }

/-! ### Oneshot services (runner.go lines 277-376) -/

/-- Outcome of spawning and waiting for a oneshot command:
`cmd.Start()` fails; `cmd.Wait()` returns nil (exit 0); `cmd.Wait()`
returns an `*exec.ExitError` with the given exit code; or `cmd.Wait()`
returns some other error. -/
inductive ProcOutcome where
  | spawnError
  | exitOk
  | exitErr (code : Int)
  | waitOther
deriving DecidableEq, Repr

/-- Models one invocation of `Runner.startOneshotService`: the final
`ServiceState` after the whole run with the given process outcome.  If
`strings.Fields(svc.Cmd)` is empty the function returns before touching
the state (lines 281-284).  Otherwise the run count is incremented and
`LastRun` set before the spawn (lines 286-291), and the final
status/exit-code/running fields follow lines 317-376.  The log-channel
sends carry fixed informational text and are not part of the state. -/
def startOneshotService (st : ServiceState) (now : Nat) (out : ProcOutcome) :
    ServiceState :=
  if goFields st.service.cmd = [] then st
  else
    let st1 := { st with
      running := true, status := Status.running,
      lastRun := now, runCount := st.runCount + 1 }
    match out with
    | .spawnError => { st1 with running := false, status := .failed, exitCode := -1 }
    | .exitOk => { st1 with running := false, status := .completed, exitCode := 0 }
    | .exitErr c => { st1 with running := false, status := .failed, exitCode := c }
    | .waitOther => { st1 with running := false, status := .failed, exitCode := -1 }

/-! ### HTTP services (runner.go lines 475-573) -/

/-- Outcome of an HTTP invocation: building the request fails,
`client.Do` fails (transport error), or a response with the given
status code is received. -/
inductive HTTPOutcome where
  | reqError
  | transportError
  | response (code : Nat)
deriving DecidableEq, Repr

/-- Models one invocation of `Runner.startHTTPService`: run count and
`LastRun` are set up front (lines 478-483); a request-build or
transport error leaves the exit code untouched and sets `failed`
(lines 496-509, 525-538); a received response stores its status code in
the exit-code field and sets `failed` iff the code is ≥ 400
(lines 547-556). -/
def startHTTPService (st : ServiceState) (now : Nat) (out : HTTPOutcome) :
    ServiceState :=
  let st1 := { st with
    running := true, status := Status.running,
    lastRun := now, runCount := st.runCount + 1 }
  match out with
  | .reqError => { st1 with running := false, status := .failed }
  | .transportError => { st1 with running := false, status := .failed }
  | .response code =>
    { st1 with
      running := false
      exitCode := (code : Int)
      status := if 400 ≤ code then .failed else .completed }

/-! ### Interval services (runner.go lines 379-472) -/

/-- Result of the synchronous `cmd.CombinedOutput()` in one tick:
success, failure with an `*exec.ExitError` exit code, or failure with
some other error (in which case the exit code field is not updated). -/
inductive TickResult where
  | ok
  | exitFail (code : Int)
  | otherFail
deriving DecidableEq, Repr

/-- Models runner.go lines 451-459: the combined output is trimmed,
split on newlines, and each non-empty line is fed through
`processLine` (with `IsError` set when the command failed). -/
def processOutput (excl filt : Option (String → Bool)) (logs : List LogLine)
    (service : String) (output : String) (isErr : Bool) (now : Nat) :
    List LogLine :=
  if output = "" then logs
  else
    (goSplitNewline (goTrimSpace output)).foldl
      (fun lg line =>
        if line ≠ "" then (processLine excl filt lg service line isErr now).1
        else lg) logs

/-- Models `Runner.runIntervalCommand` (runner.go lines 420-472) for
one tick: an empty command field returns without touching the state;
otherwise `LastRun`/`NextRun`/`RunCount` are updated (lines 429-434),
the output lines are processed into the ring buffer, and the status
becomes `waiting` (exit code 0) on success or `failed` on error. -/
def runIntervalCommand (excl filt : Option (String → Bool))
    (st : ServiceState) (now : Nat) (output : String) (res : TickResult) :
    ServiceState :=
  if goFields st.service.cmd = [] then st
  else
    let st1 := { st with
      lastRun := now, nextRun := now + st.service.interval,
      runCount := st.runCount + 1 }
    let st2 := { st1 with
      logs := processOutput excl filt st1.logs st.name output (res ≠ .ok) now }
    match res with
    | .ok => { st2 with status := .waiting, exitCode := 0 }
    | .exitFail c => { st2 with status := .failed, exitCode := c }
    | .otherFail => { st2 with status := .failed }

/-- Initialization of `Runner.startIntervalService` before the loop
(runner.go lines 382-387); the ticker handle is a runtime resource. -/
def startIntervalInit (st : ServiceState) (now : Nat) : ServiceState :=
  { st with running := true, status := .waiting, nextRun := now }

/-- One iteration of the `select` loop of `startIntervalService`
(runner.go lines 398-417): a ticker tick runs the command and the loop
continues; a stop-channel signal stops the ticker, marks the service
stopped and exits the loop.  The returned `Bool` is `true` when the
loop keeps running. -/
inductive IntervalEvent where
  | tick (output : String) (res : TickResult)
  | stopSignal
deriving DecidableEq, Repr

def intervalStep (excl filt : Option (String → Bool)) (st : ServiceState)
    (now : Nat) (e : IntervalEvent) : ServiceState × Bool :=
  match e with
  | .tick output res => (runIntervalCommand excl filt st now output res, true)
  | .stopSignal => ({ st with running := false, status := .stopped }, false)

/-! ### Stop and restart effect traces (runner.go lines 575-608)

`RestartService` and `stopService` interact with the operating system
(signals, sleeps) and the scheduler (`go`).  They are modelled as the
trace of effects they perform, split into the part executed
synchronously in the caller and the part spawned as a new goroutine. -/

inductive RunEffect where
  | termGroup (name : String)
  | killGroup (name : String)
  | signalStopChan (name : String)
  | sleepMs (ms : Nat)
  | spawnStart (name : String)
deriving DecidableEq, Repr

/-- Models `Runner.stopService` (lines 575-593): an interval service
gets a non-blocking send on its stop channel; any other kind, when a
live process handle exists, gets SIGTERM to its process group, a fixed
100 ms grace sleep, then SIGKILL to the group. -/
def stopServiceEffects (t : ServiceType) (hasProc : Bool) (name : String) :
    List RunEffect :=
  match t with
  | .interval => [.signalStopChan name]
  | _ =>
    if hasProc then [.termGroup name, .sleepMs 100, .killGroup name]
    else []

/-- Models `Runner.RestartService` (lines 596-608): for an unknown name
nothing happens; otherwise `stopService` runs synchronously, then the
caller sleeps 500 ms, then `go r.startService(name)` is spawned.  First
component: effects executed synchronously in the caller; second
component: the asynchronously spawned work. -/
def restartServiceTrace (known : Bool) (t : ServiceType) (hasProc : Bool)
    (name : String) : List RunEffect × List RunEffect :=
  if known then
    (stopServiceEffects t hasProc name ++ [.sleepMs 500], [.spawnStart name])
  else ([], [])

/-! ### Wire protocol (daemon/protocol.go) -/

/-- Models the `Message` wire envelope: a discriminant string and an
optional raw payload (`json.RawMessage`); an absent payload is `none`
and decodes as a zero-length payload. -/
structure WireMessage where
  type : String
  payload : Option String
deriving DecidableEq, Repr

/-- Models `ParsePayload[T]` (protocol.go lines 46-54): a `nil` or
zero-length payload yields the zero value of `T` with no error;
otherwise `json.Unmarshal` — abstracted as the `unmarshal` argument —
decodes the payload.  `zero` is Go's zero value `var result T`. -/
def parsePayload {T : Type} (zero : T) (unmarshal : String → Except String T)
    (m : WireMessage) : Except String T :=
  match m.payload with
  | none => .ok zero
  | some s => if s = "" then .ok zero else unmarshal s

/-- Response messages sent by the daemon, by discriminant
(protocol.go lines 19-29).  Only the payloads that the verified claims
inspect are carried; the others are opaque here. -/
inductive Response where
  | started (services : List String)
  | stoppedResp
  | restarted (service : String)
  | statusResponse
  | logsResponse
  | portsResponse
  | killResponse
  | logEntry
  | error (message : String)
deriving DecidableEq, Repr

/-- Wire discriminant of a response (protocol.go constants). -/
def msgType : Response → String
  | .started _ => "started"
  | .stoppedResp => "stopped"
  | .restarted _ => "restarted"
  | .statusResponse => "status_response"
  | .logsResponse => "logs_response"
  | .portsResponse => "ports_response"
  | .killResponse => "kill_response"
  | .logEntry => "log_entry"
  | .error _ => "error"

/-- Models `StartRequest` (protocol.go). -/
structure StartRequest where
  services : List String
  killPorts : Bool
deriving DecidableEq, Repr

/-- Models `RestartRequest` (protocol.go). -/
structure RestartRequest where
  service : String
deriving DecidableEq, Repr

/-! ### Daemon state and request handlers (daemon/daemon.go) -/

/-- Models `config.Config`: the service map as an association list
(first binding wins on lookup) plus the default service list. -/
structure Config where
  services : List (String × Service)
  defaults : List String
  rootDir : String
deriving DecidableEq, Repr

/-- Map lookup `cfg.Services[name]`. -/
def lookupService (cfg : Config) (name : String) : Option Service :=
  (cfg.services.find? (fun p => p.1 = name)).map (fun p => p.2)

/-- Models the `runner.Runner` record held by the daemon: the ordered
service-name list and one `ServiceState` per retained service.  The
daemon always constructs it with empty filter patterns, so no filters
are stored here. -/
structure RunnerM where
  serviceOrder : List String
  states : List (String × ServiceState)
deriving DecidableEq, Repr

/-- Models `runner.New(cfg, serviceNames, "", "")` (runner.go lines
55-86): one fresh stopped state per requested name found in the
configuration. -/
def runnerNew (cfg : Config) (names : List String) : RunnerM :=
  { serviceOrder := names
    states := names.filterMap
      (fun n => (lookupService cfg n).map (fun s => (n, initState n s))) }

/-- Membership of a name in the runner's service map
(`d.runner.Services[req.Service]`). -/
def runnerHas (r : RunnerM) (name : String) : Bool :=
  (r.states.find? (fun p => p.1 = name)).isSome

/-- Models the daemon's mutable state relevant to the handlers: the
configuration and the optional current runner. -/
structure DaemonState where
  config : Config
  runner : Option RunnerM
deriving DecidableEq, Repr

/-- Side effects a handler triggers on services and processes, beyond
its returned state and reply. -/
inductive DaemonEffect where
  | killPortProcess (pid : Nat)
  | startServices (names : List String)
  | restartSvc (name : String)
deriving DecidableEq, Repr

/-- Models `Daemon.handleStart` (daemon.go lines 238-281) after the
payload has been decoded: an empty request falls back to the configured
defaults; the first name missing from the configuration aborts with the
error reply and no effect; otherwise the optional kill-ports pass runs
(`portPid` abstracts `GetPortPID`, with `IsPortInUse port =
(portPid port > 0)`), a fresh runner replaces the daemon's runner and
all services are started.  The reply goes only to the requesting
connection. -/
def handleStart (portPid : Nat → Option Nat) (d : DaemonState)
    (req : StartRequest) : DaemonState × List DaemonEffect × Response :=
  let services := if req.services = [] then d.config.defaults else req.services
  match services.find? (fun n => (lookupService d.config n).isNone) with
  | some n => (d, [], .error ("unknown service: " ++ n))
  | none =>
    let kills := if req.killPorts then
        services.filterMap (fun n =>
          match lookupService d.config n with
          | some svc =>
            if svc.port > 0 then
              match portPid svc.port with
              | some pid => if pid > 0 then some (DaemonEffect.killPortProcess pid) else none
              | none => none
            else none
          | none => none)
      else []
    ({ d with runner := some (runnerNew d.config services) },
     kills ++ [.startServices services], .started services)

/-- Models `Daemon.handleRestart` (daemon.go lines 314-335) after the
payload has been decoded: with no runner, or with a name absent from
the runner's service set, the error reply is sent and nothing else
happens; otherwise `RestartService` is invoked. -/
def handleRestart (d : DaemonState) (req : RestartRequest) :
    DaemonState × List DaemonEffect × Response :=
  match d.runner with
  | none => (d, [], .error "no services running")
  | some r =>
    if runnerHas r req.service then
      (d, [.restartSvc req.service], .restarted req.service)
    else
      (d, [], .error ("unknown service: " ++ req.service))

/-! ### Socket path derivation (daemon.go lines 29-44) -/

/-- Models `simpleHash`: `h = h*31 + uint32(c)` over the string's code
points, wrapping at 2^32. -/
def simpleHash (s : String) : Nat :=
  s.data.foldl (fun h c => (h * 31 + c.toNat) % 4294967296) 0

/-- Lowercase hexadecimal digit. -/
def hexDigit (n : Nat) : Char :=
  if n < 10 then Char.ofNat (48 + n) else Char.ofNat (87 + n)

/-- Digit list of `fmt.Sprintf("%08x", h)` for `h < 2^32`: eight
lowercase hex digits, most significant first, zero padded. -/
def toHex8Digits (n : Nat) : List Char :=
  [hexDigit (n / 268435456 % 16), hexDigit (n / 16777216 % 16),
    hexDigit (n / 1048576 % 16), hexDigit (n / 65536 % 16),
    hexDigit (n / 4096 % 16), hexDigit (n / 256 % 16),
    hexDigit (n / 16 % 16), hexDigit (n % 16)]

/-- Models `fmt.Sprintf("%08x", h)` for `h < 2^32`. -/
def toHex8 (n : Nat) : String :=
  String.mk (toHex8Digits n)

/-- Models `filepath.Join dir name` for the clean directory and
slash-free file name used here. -/
def pathJoin (dir name : String) : String :=
  dir ++ "/" ++ name

/-- Models `SocketPath(configDir)`: under `$XDG_RUNTIME_DIR` when that
environment variable is non-empty, else under `/tmp`, with the file
name `devir-<hash>.sock`. -/
def socketPath (xdgRuntimeDir : Option String) (configDir : String) : String :=
  match xdgRuntimeDir with
  | some d => pathJoin d ("devir-" ++ toHex8 (simpleHash configDir) ++ ".sock")
  | none => "/tmp/devir-" ++ toHex8 (simpleHash configDir) ++ ".sock"

/-! ### Dynamic status overlay (runner.go lines 791-818, daemon.go
lines 390-416)

`Runner.readDynamicStatus` and `Daemon.readDynamicStatus` are
line-for-line identical; one model covers both.  The struct
`types.DynamicStatus` is used but not declared under `src/`. -/

/-- Modelled from the spec: `types.DynamicStatus`, "a small JSON object
with optional `icon`, `color`, `status`, `message` string fields"; the
struct declaration itself is missing from the provided sources, its
four exported string fields are fixed by the accesses in
runner.go/daemon.go. -/
structure DynamicStatus where
  icon : String
  color : String
  status : String
  message : String
deriving DecidableEq, Repr

/-- JSON value tree, as decoded by `encoding/json`. -/
inductive JVal where
  | jnull
  | jbool (b : Bool)
  | jnum
  | jstr (s : String)
  | jarr (elems : List JVal)
  | jobj (fields : List (String × JVal))

/-- JSON insignificant whitespace (RFC 8259: space, tab, LF, CR). -/
def jskipWs (l : List Char) : List Char :=
  l.dropWhile (fun c => c = ' ' || c = '\t' || c = '\n' || c = '\r')

def isDigitCh (c : Char) : Bool :=
  '0' ≤ c && c ≤ '9'

/-- Value of a hexadecimal digit. -/
def hexVal (c : Char) : Option Nat :=
  if '0' ≤ c && c ≤ '9' then some (c.toNat - 48)
  else if 'a' ≤ c && c ≤ 'f' then some (c.toNat - 87)
  else if 'A' ≤ c && c ≤ 'F' then some (c.toNat - 55)
  else none

/-- Single-character JSON string escapes. -/
def jescChar (e : Char) : Option Char :=
  if e = '"' then some '"'
  else if e = '\\' then some '\\'
  else if e = '/' then some '/'
  else if e = 'b' then some '\x08'
  else if e = 'f' then some '\x0c'
  else if e = 'n' then some '\n'
  else if e = 'r' then some '\r'
  else if e = 't' then some '\t'
  else none

/-- Body of a JSON string after the opening quote; `acc` holds the
decoded characters reversed.  `\uXXXX` is decoded as a single code
point (UTF-16 surrogate pairs are not combined; Go combines them, a
divergence only for inputs spelling astral characters via escapes,
which no statement below relies on). -/
def jparseStringBody (acc : List Char) : List Char → Option (String × List Char)
  | [] => none
  | c :: rest =>
    if c = '"' then some (String.mk acc.reverse, rest)
    else if c = '\\' then
      match rest with
      | [] => none
      | e :: rest2 =>
        if e = 'u' then
          match rest2 with
          | h1 :: h2 :: h3 :: h4 :: rest3 =>
            match hexVal h1, hexVal h2, hexVal h3, hexVal h4 with
            | some a, some b, some c2, some d =>
              jparseStringBody (Char.ofNat (((a * 16 + b) * 16 + c2) * 16 + d) :: acc) rest3
            | _, _, _, _ => none
          | _ => none
        else
          match jescChar e with
          | some ec => jparseStringBody (ec :: acc) rest2
          | none => none
    else if c.toNat < 32 then none
    else jparseStringBody (c :: acc) rest

/-- Exponent part of a JSON number (optional). -/
def jparseExp (l : List Char) : Option (List Char) :=
  match l with
  | c :: r =>
    if c = 'e' || c = 'E' then
      let r1 := match r with
        | s :: r2 => if s = '+' || s = '-' then r2 else r
        | [] => r
      match r1 with
      | d :: _ => if isDigitCh d then some (r1.dropWhile isDigitCh) else none
      | [] => none
    else some l
  | [] => some []

/-- Fraction then exponent part of a JSON number (optional). -/
def jparseFrac (l : List Char) : Option (List Char) :=
  match l with
  | '.' :: r =>
    match r with
    | c :: _ => if isDigitCh c then jparseExp (r.dropWhile isDigitCh) else none
    | [] => none
  | _ => jparseExp l

/-- JSON number; returns the remaining input on success. -/
def jparseNumber (l : List Char) : Option (List Char) :=
  let l1 := match l with
    | '-' :: r => r
    | _ => l
  match l1 with
  | '0' :: r => jparseFrac r
  | c :: r => if isDigitCh c then jparseFrac (r.dropWhile isDigitCh) else none
  | [] => none

/-- Fuel-indexed family of the three mutually recursive JSON parsers:
a value parser, an object-member-list parser and an array-element
parser.  Every descent to the previous fuel level consumes at least one
input character first, so fuel `length + 2` never runs out on any
input. -/
def jparsers : Nat →
    (List Char → Option (JVal × List Char)) ×
    (List Char → List (String × JVal) → Option (List (String × JVal) × List Char)) ×
    (List Char → List JVal → Option (List JVal × List Char))
  | 0 => (fun _ => none, fun _ _ => none, fun _ _ => none)
  | fuel + 1 =>
    let prev := jparsers fuel
    let pv := prev.1
    let pm := prev.2.1
    let pe := prev.2.2
    (fun l =>
      match jskipWs l with
      | [] => none
      | c :: rest =>
        if c = '"' then
          match jparseStringBody [] rest with
          | some (s, r) => some (JVal.jstr s, r)
          | none => none
        else if c = '\x7b' then
          match jskipWs rest with
          | '\x7d' :: r => some (JVal.jobj [], r)
          | l2 =>
            match pm l2 [] with
            | some (fs, r) => some (JVal.jobj fs, r)
            | none => none
        else if c = '[' then
          match jskipWs rest with
          | ']' :: r => some (JVal.jarr [], r)
          | l2 =>
            match pe l2 [] with
            | some (es, r) => some (JVal.jarr es, r)
            | none => none
        else if c = 't' then
          match rest with
          | 'r' :: 'u' :: 'e' :: r => some (JVal.jbool true, r)
          | _ => none
        else if c = 'f' then
          match rest with
          | 'a' :: 'l' :: 's' :: 'e' :: r => some (JVal.jbool false, r)
          | _ => none
        else if c = 'n' then
          match rest with
          | 'u' :: 'l' :: 'l' :: r => some (JVal.jnull, r)
          | _ => none
        else if c = '-' || isDigitCh c then
          match jparseNumber (c :: rest) with
          | some r => some (JVal.jnum, r)
          | none => none
        else none,
     fun l acc =>
      match l with
      | '"' :: rest =>
        match jparseStringBody [] rest with
        | some (k, r1) =>
          match jskipWs r1 with
          | ':' :: r2 =>
            match pv (jskipWs r2) with
            | some (v, r3) =>
              match jskipWs r3 with
              | ',' :: r4 => pm (jskipWs r4) (acc ++ [(k, v)])
              | '\x7d' :: r4 => some (acc ++ [(k, v)], r4)
              | _ => none
            | none => none
          | _ => none
        | none => none
      | _ => none,
     fun l acc =>
      match pv l with
      | some (v, r1) =>
        match jskipWs r1 with
        | ',' :: r2 => pe (jskipWs r2) (acc ++ [v])
        | ']' :: r2 => some (acc ++ [v], r2)
        | _ => none
      | none => none)

/-- Parse a complete JSON document: one value, with only whitespace
allowed after it (as `json.Unmarshal` requires). -/
def jsonParse (s : String) : Option JVal :=
  match (jparsers (s.data.length + 2)).1 s.data with
  | some (v, rest) => if jskipWs rest = [] then some v else none
  | none => none

/-- Assignment of one decoded object member into the struct, as
`json.Unmarshal` into `types.DynamicStatus` does: keys are matched to
the four exported string fields case-insensitively (ASCII folding; the
field names are plain ASCII), a string value is assigned, a null value
leaves the field untouched, any other value type for a matched field is
a type error, and unknown keys are ignored. -/
def setDSField (ds : DynamicStatus) (key : String) (v : JVal) :
    Option DynamicStatus :=
  let k := strToLower key
  if k = "icon" then
    match v with
    | .jstr s => some { ds with icon := s }
    | .jnull => some ds
    | _ => none
  else if k = "color" then
    match v with
    | .jstr s => some { ds with color := s }
    | .jnull => some ds
    | _ => none
  else if k = "status" then
    match v with
    | .jstr s => some { ds with status := s }
    | .jnull => some ds
    | _ => none
  else if k = "message" then
    match v with
    | .jstr s => some { ds with message := s }
    | .jnull => some ds
    | _ => none
  else some ds

/-- Models `json.Unmarshal([]byte(content), &ds)` for
`ds types.DynamicStatus`: the document must be a JSON object (or
null, which leaves the zero value); members are folded left to right
(duplicate keys: last assignment wins). -/
def jsonUnmarshalDynamic (s : String) : Option DynamicStatus :=
  match jsonParse s with
  | some (.jobj fields) =>
    fields.foldl (fun acc kv => acc.bind (fun ds => setDSField ds kv.1 kv.2))
      (some ⟨"", "", "", ""⟩)
  | some .jnull => some ⟨"", "", "", ""⟩
  | _ => none

/-- Prefix of the character list occupying at most `n` UTF-8 bytes. -/
def takeBytes (n : Nat) : List Char → List Char
  | [] => []
  | c :: rest => if c.utf8Size ≤ n then c :: takeBytes (n - c.utf8Size) rest else []

/-- Models `if len(content) > 20 { content = content[:20] }`: byte
truncation to 20 UTF-8 bytes.  When the 20-byte boundary would split a
multi-byte rune Go keeps the invalid partial bytes, which a Lean
`String` cannot represent; this model stops at the last whole
character, a divergence no statement below relies on. -/
def goTruncate20 (s : String) : String :=
  if s.utf8ByteSize ≤ 20 then s else String.mk (takeBytes 20 s.data)

/-- Models `strings.HasPrefix content "\x7b"`. -/
def startsWithBrace (s : String) : Bool :=
  match s.data with
  | c :: _ => c = '\x7b'
  | [] => false

/-- Models `readDynamicStatus` (identical in runner.go lines 791-818
and daemon.go lines 390-416).  `file` is the `os.ReadFile` result:
`none` for a missing or unreadable file.  Empty (after trimming)
content yields no overlay; content starting with `\x7b` is tried as
JSON; on JSON failure — and for all other content — the text truncated
to 20 bytes becomes the icon. -/
def readDynamicStatus (file : Option String) : Option DynamicStatus :=
  match file with
  | none => none
  | some data =>
    let content := goTrimSpace data
    if content = "" then none
    else if startsWithBrace content then
      match jsonUnmarshalDynamic content with
      | some ds => some ds
      | none => some ⟨goTruncate20 content, "", "", ""⟩
    else some ⟨goTruncate20 content, "", "", ""⟩

/-- Display fields of one status snapshot entry. -/
structure Display where
  icon : String
  color : String
  status : String
  message : String
deriving DecidableEq, Repr

/-- Models the overlay application in `Runner.GetServices` (runner.go
lines 753-770) and `Daemon.handleStatus` (daemon.go lines 344-361): a
non-empty dynamic icon/color/status replaces the static value for this
one snapshot; the message is taken from the overlay (the static message
is always empty). -/
def applyOverlay (static : Display) (ds : Option DynamicStatus) : Display :=
  match ds with
  | none => static
  | some d =>
    { icon := if d.icon ≠ "" then d.icon else static.icon
      color := if d.color ≠ "" then d.color else static.color
      status := if d.status ≠ "" then d.status else static.status
      message := d.message }

theorem appendCapped_step (L : List LogLine) (x : LogLine) :
    appendCapped (L.drop (L.length - 1000)) x =
      (L ++ [x]).drop ((L ++ [x]).length - 1000) := by
  unfold appendCapped
  by_cases h : L.length < 1000
  · have h0 : L.length - 1000 = 0 := by omega
    have h1 : (L ++ [x]).length - 1000 = 0 := by
      simp only [List.length_append, List.length_singleton]; omega
    rw [h0, h1]
    simp only [List.drop_zero]
    rw [if_neg]
    simp only [List.length_append, List.length_singleton]
    omega
  · push_neg at h
    have hd : (L.drop (L.length - 1000)).length = 1000 := by
      rw [List.length_drop]; omega
    rw [if_pos (by simp [hd])]
    simp only [hd, List.length_append, List.length_singleton]
    have h1 : 1000 + 1 - 1000 = 1 := by omega
    rw [h1]
    have h2 : (1 : ℕ) ≤ (L.drop (L.length - 1000)).length := by omega
    rw [List.drop_append_of_le_length h2]
    rw [List.drop_drop]
    have h3 : L.length + 1 - 1000 = L.length - 1000 + 1 := by omega
    rw [h3]
    have h4 : L.length - 1000 + 1 ≤ L.length := by omega
    rw [List.drop_append_of_le_length h4]

theorem foldl_appendCapped (ls : List LogLine) :
    ls.foldl appendCapped [] = ls.drop (ls.length - 1000) := by
  induction ls using List.reverseRecOn with
  | nil => simp [appendCapped]
  | append_singleton L x ih =>
    rw [List.foldl_append, List.foldl_cons, List.foldl_nil, ih,
      appendCapped_step]

theorem runLines_eq_foldl (excl filt : Option (String → Bool)) (service : String)
    (inputs : List (String × Bool × Nat)) : ∀ logs,
    runLines excl filt service logs inputs =
      (inputs.filterMap
        (fun i => storedLine excl filt service i.1 i.2.1 i.2.2)).foldl
        appendCapped logs := by
  induction inputs with
  | nil => intro logs; rfl
  | cons i tl ih =>
    intro logs
    have hstep : runLines excl filt service logs (i :: tl) =
        runLines excl filt service
          ((processLine excl filt logs service i.1 i.2.1 i.2.2).1) tl := rfl
    rw [hstep, List.filterMap_cons]
    cases h : storedLine excl filt service i.1 i.2.1 i.2.2 with
    | none =>
      simp only [processLine, h]
      exact ih logs
    | some l =>
      simp only [processLine, h, List.foldl_cons]
      exact ih (appendCapped logs l)

/-- C1: For every service, after any sequence of processed log lines,
the per-service log buffer holds at most 1000 entries, and the buffer
always contains exactly the most recent kept lines in arrival order:
older entries are the ones evicted (FIFO). -/
theorem log_buffer_capped_fifo (excl filt : Option (String → Bool))
    (service : String) (inputs : List (String × Bool × Nat)) :
    runLines excl filt service [] inputs =
      (inputs.filterMap
        (fun i => storedLine excl filt service i.1 i.2.1 i.2.2)).drop
        ((inputs.filterMap
          (fun i => storedLine excl filt service i.1 i.2.1 i.2.2)).length - 1000) ∧
    (runLines excl filt service [] inputs).length ≤ 1000 := by
  rw [runLines_eq_foldl excl filt service inputs [], foldl_appendCapped]
  refine ⟨rfl, ?_⟩
  rw [List.length_drop]
  omega

theorem removeCR_noCR (s : String) :
    (removeCR s).data.all (fun c => c ≠ '\r') = true := by
  simp only [removeCR, List.all_eq_true, decide_eq_true_eq]
  intro c hc
  have h := List.of_mem_filter hc
  simpa using h

theorem goTrimSpace_subset (s : String) :
    ∀ c ∈ (goTrimSpace s).data, c ∈ s.data := by
  intro c hc
  simp only [goTrimSpace] at hc
  rw [List.mem_reverse] at hc
  have h1 := (List.dropWhile_sublist goIsSpace).subset hc
  rw [List.mem_reverse] at h1
  exact (List.dropWhile_sublist goIsSpace).subset h1

theorem sanitizeText_noCR (text : String) :
    (sanitizeText text).data.all (fun c => c ≠ '\r') = true := by
  simp only [sanitizeText, List.all_eq_true, decide_eq_true_eq]
  intro c hc
  have h1 : c ∈ (removeCR (stripAnsi text)).data :=
    goTrimSpace_subset (removeCR (stripAnsi text)) c hc
  have h2 := removeCR_noCR (stripAnsi text)
  simp only [List.all_eq_true, decide_eq_true_eq] at h2
  exact h2 c h1

theorem storedLine_some_iff (excl filt : Option (String → Bool))
    (service text : String) (isError : Bool) (now : Nat) (l : LogLine) :
    storedLine excl filt service text isError now = some l ↔
      (sanitizeText text ≠ "" ∧ exclDrops excl (sanitizeText text) = false ∧
       filtDrops filt (sanitizeText text) = false ∧
       l = ⟨service, sanitizeText text, now, isError⟩) := by
  unfold storedLine
  simp only []
  split_ifs with h1 h2 h3
  · simp [h1]
  · simp [h1, h2]
  · simp [h1, h2, h3]
  · constructor
    · intro h
      refine ⟨h1, by simpa using h2, by simpa using h3, ?_⟩
      exact (Option.some.injEq _ _ ▸ h).symm
    · intro ⟨_, _, _, h⟩
      rw [h]

/-- C9 (amended): every line that `processLine` stores in the ring
buffer and pushes onto the broadcast path is the sanitized form of the
raw line (one ANSI-strip pass, carriage returns removed, trimmed), is
non-empty, contains no carriage-return characters, is not matched by
the exclude pattern and is matched by the include pattern when one is
set; and a line is dropped (nothing stored, nothing broadcast) exactly
when the sanitized text is empty, matches the exclude pattern, or
fails a configured include filter.  (The original claim's "contains no
ANSI escape sequences" is weakened to "one ANSI-strip pass is applied":
see the counterexample.) -/
theorem processed_line_sanitized (excl filt : Option (String → Bool))
    (logs : List LogLine) (service text : String) (isError : Bool) (now : Nat) :
    (∀ l, storedLine excl filt service text isError now = some l →
      l.text = sanitizeText text ∧
      l.text ≠ "" ∧
      l.text.data.all (fun c => c ≠ '\r') = true ∧
      (∀ e, excl = some e → e l.text = false) ∧
      (∀ f, filt = some f → f l.text = true) ∧
      processLine excl filt logs service text isError now =
        (appendCapped logs l, some l)) ∧
    (storedLine excl filt service text isError now = none ↔
      (sanitizeText text = "" ∨
       (∃ e, excl = some e ∧ e (sanitizeText text) = true) ∨
       (∃ f, filt = some f ∧ f (sanitizeText text) = false))) := by
  constructor
  · intro l hl
    obtain ⟨h1, h2, h3, h4⟩ := (storedLine_some_iff _ _ _ _ _ _ _).mp hl
    subst h4
    refine ⟨rfl, h1, sanitizeText_noCR text, ?_, ?_, ?_⟩
    · intro e he
      rw [he] at h2
      simpa [exclDrops] using h2
    · intro f hf
      rw [hf] at h3
      simpa [filtDrops] using h3
    · simp [processLine, hl]
  · constructor
    · intro h
      by_contra hc
      rw [not_or, not_or] at hc
      obtain ⟨hne, hex, hfi⟩ := hc
      have he : exclDrops excl (sanitizeText text) = false := by
        cases excl with
        | none => rfl
        | some e =>
          simp only [exclDrops]
          by_contra hb
          exact hex ⟨e, rfl, by simpa using hb⟩
      have hf : filtDrops filt (sanitizeText text) = false := by
        cases filt with
        | none => rfl
        | some f =>
          simp only [filtDrops]
          by_contra hb
          exact hfi ⟨f, rfl, by simpa using hb⟩
      have := (storedLine_some_iff excl filt service text isError now
        ⟨service, sanitizeText text, now, isError⟩).mpr ⟨hne, he, hf, rfl⟩
      rw [h] at this
      exact Option.noConfusion this
    · intro h
      unfold storedLine
      simp only []
      rcases h with h | ⟨e, he, hev⟩ | ⟨f, hf, hfv⟩
      · rw [if_pos h]
      · rw [he]
        by_cases h0 : sanitizeText text = ""
        · rw [if_pos h0]
        · rw [if_neg h0, if_pos (by simpa [exclDrops] using hev)]
      · rw [hf]
        by_cases h0 : sanitizeText text = ""
        · rw [if_pos h0]
        · rw [if_neg h0]
          by_cases h1 : exclDrops excl (sanitizeText text) = true
          · rw [if_pos h1]
          · rw [if_neg h1, if_pos (by simp [filtDrops, hfv])]

/-- C9 witness: a concrete raw line `" hi \r"` is kept with sanitized
text `"hi"`, which is non-empty and carriage-return free. -/
theorem processed_line_sanitized_witness :
    ("hi" : String) = sanitizeText " hi \r" ∧ ("hi" : String) ≠ "" ∧
    ("hi" : String).data.all (fun c => c ≠ '\r') = true := by
  have h := (processed_line_sanitized none none [] "web" " hi \r" false 5).1
    ⟨"web", "hi", 5, false⟩ (by decide)
  exact ⟨h.1, h.2.1, h.2.2.1⟩

theorem startOneshotService_service (st : ServiceState) (now : Nat)
    (out : ProcOutcome) :
    (startOneshotService st now out).service = st.service := by
  unfold startOneshotService
  split
  · rfl
  · cases out <;> rfl

theorem startOneshotService_runCount (st : ServiceState) (now : Nat)
    (out : ProcOutcome) (h : goFields st.service.cmd ≠ []) :
    (startOneshotService st now out).runCount = st.runCount + 1 := by
  unfold startOneshotService
  rw [if_neg h]
  cases out <;> rfl

theorem oneshot_runCount_fold (now : Nat) (outs : List ProcOutcome) :
    ∀ st : ServiceState, goFields st.service.cmd ≠ [] →
    (outs.foldl (fun s o => startOneshotService s now o) st).runCount =
      st.runCount + outs.length := by
  induction outs with
  | nil => intro st _; rfl
  | cons o tl ih =>
    intro st h
    rw [List.foldl_cons]
    have hsvc : (startOneshotService st now o).service = st.service :=
      startOneshotService_service st now o
    have h' : goFields (startOneshotService st now o).service.cmd ≠ [] := by
      rw [hsvc]; exact h
    rw [ih (startOneshotService st now o) h',
      startOneshotService_runCount st now o h, List.length_cons]
    omega

/-- C3 (amended): For every invocation of a oneshot service whose
command line splits into at least one field, the run count increments
by exactly 1 per invocation (also across any sequence of repeated
invocations); a spawn failure ends in `failed`; exit code 0 ends in
`completed` with exit code 0; a non-zero exit ends in `failed` with
that exit code recorded; and in every final state the running flag is
false.  (The unqualified original claim fails: a whitespace-only
command string passes configuration validation — only `Cmd == ""` is
rejected — yet `strings.Fields` yields no fields, so the invocation
returns at runner.go lines 281-284 without incrementing the run count;
see the counterexample.) -/
theorem oneshot_invocation (st : ServiceState) (now : Nat)
    (out : ProcOutcome) (h : goFields st.service.cmd ≠ []) :
    (startOneshotService st now out).runCount = st.runCount + 1 ∧
    (startOneshotService st now out).running = false ∧
    (out = .spawnError → (startOneshotService st now out).status = .failed) ∧
    (out = .exitOk → (startOneshotService st now out).status = .completed ∧
      (startOneshotService st now out).exitCode = 0) ∧
    (∀ c, out = .exitErr c → (startOneshotService st now out).status = .failed ∧
      (startOneshotService st now out).exitCode = c) ∧
    (∀ outs : List ProcOutcome,
      (outs.foldl (fun s o => startOneshotService s now o) st).runCount =
        st.runCount + outs.length) := by
  refine ⟨startOneshotService_runCount st now out h, ?_, ?_, ?_, ?_,
    fun outs => oneshot_runCount_fold now outs st h⟩
  all_goals unfold startOneshotService
  all_goals rw [if_neg h]
  · cases out <;> rfl
  · intro ho; rw [ho]
  · intro ho; rw [ho]; exact ⟨rfl, rfl⟩
  · intro c ho; rw [ho]; exact ⟨rfl, rfl⟩

/-- C3 witness: a concrete oneshot service with command `"true"`,
invoked once with exit code 0, ends completed with exit code 0, run
count 1 and running flag false. -/
theorem oneshot_invocation_witness :
    (startOneshotService
      (initState "job" ⟨".", "true", 0, "white", "", .oneshot, 0, "", "", "", []⟩)
      7 .exitOk).runCount = 1 ∧
    (startOneshotService
      (initState "job" ⟨".", "true", 0, "white", "", .oneshot, 0, "", "", "", []⟩)
      7 .exitOk).status = .completed := by
  have h := oneshot_invocation
    (initState "job" ⟨".", "true", 0, "white", "", .oneshot, 0, "", "", "", []⟩)
    7 .exitOk (by decide)
  exact ⟨h.1, (h.2.2.2.1 rfl).1⟩

/-- C3 counterexample: a oneshot service configured with the
whitespace-only command `" "` — accepted by `config.Load`, which only
rejects an empty `Cmd` string — is invoked without any state change:
the run count stays 0 instead of incrementing to 1, refuting "the run
count increments by exactly 1 per invocation" as stated. -/
theorem oneshot_whitespace_cmd_no_increment :
    (startOneshotService
      (initState "job" ⟨".", " ", 0, "white", "", .oneshot, 0, "", "", "", []⟩)
      7 .exitOk).runCount = 0 ∧
    (startOneshotService
      (initState "job" ⟨".", " ", 0, "white", "", .oneshot, 0, "", "", "", []⟩)
      7 .exitOk) =
      initState "job" ⟨".", " ", 0, "white", "", .oneshot, 0, "", "", "", []⟩ ∧
    (initState "job" ⟨".", " ", 0, "white", "", .oneshot, 0, "", "", "", []⟩).service.cmd ≠ "" ∧
    (0 : Nat) ≠ 0 + 1 := by decide

/-- C4: For every invocation of an http service: a received response
with status code < 400 ends in `completed`; a status code ≥ 400 or a
transport error ends in `failed`; the exit-code field carries the HTTP
status code of a received response; the run count increments by exactly
1; and the running flag ends false. -/
theorem http_invocation (st : ServiceState) (now : Nat) (out : HTTPOutcome) :
    (startHTTPService st now out).running = false ∧
    (startHTTPService st now out).runCount = st.runCount + 1 ∧
    (∀ code, out = .response code →
      (startHTTPService st now out).exitCode = (code : Int) ∧
      (code < 400 → (startHTTPService st now out).status = .completed) ∧
      (400 ≤ code → (startHTTPService st now out).status = .failed)) ∧
    ((out = .reqError ∨ out = .transportError) →
      (startHTTPService st now out).status = .failed) := by
  refine ⟨?_, ?_, ?_, ?_⟩
  · cases out <;> rfl
  · cases out <;> rfl
  · intro code hc
    subst hc
    refine ⟨rfl, ?_, ?_⟩
    · intro hlt
      simp only [startHTTPService]
      rw [if_neg (by omega)]
    · intro hge
      simp only [startHTTPService]
      rw [if_pos hge]
  · intro hc
    rcases hc with h | h <;> subst h <;> rfl

/-- C4 witness: a concrete http probe receiving a 503 response ends
failed with exit code 503; receiving 200 ends completed. -/
theorem http_invocation_witness :
    (startHTTPService
      (initState "ping" ⟨".", "", 0, "white", "", .http, 0, "http://x", "GET", "", []⟩)
      3 (.response 503)).status = .failed ∧
    (startHTTPService
      (initState "ping" ⟨".", "", 0, "white", "", .http, 0, "http://x", "GET", "", []⟩)
      3 (.response 503)).exitCode = 503 ∧
    (startHTTPService
      (initState "ping" ⟨".", "", 0, "white", "", .http, 0, "http://x", "GET", "", []⟩)
      3 (.response 200)).status = .completed := by
  have h1 := http_invocation
    (initState "ping" ⟨".", "", 0, "white", "", .http, 0, "http://x", "GET", "", []⟩)
    3 (.response 503)
  have h2 := http_invocation
    (initState "ping" ⟨".", "", 0, "white", "", .http, 0, "http://x", "GET", "", []⟩)
    3 (.response 200)
  obtain ⟨-, -, hr1, -⟩ := h1
  obtain ⟨-, -, hr2, -⟩ := h2
  refine ⟨((hr1 503 rfl).2.2 (by omega)), (hr1 503 rfl).1, (hr2 200 rfl).2.1 (by omega)⟩

theorem runIntervalCommand_service (excl filt : Option (String → Bool))
    (st : ServiceState) (now : Nat) (output : String) (res : TickResult) :
    (runIntervalCommand excl filt st now output res).service = st.service := by
  unfold runIntervalCommand
  split
  · rfl
  · cases res <;> rfl

theorem runIntervalCommand_ok_status (excl filt : Option (String → Bool))
    (now : Nat) (output : String) (s : ServiceState)
    (hs : goFields s.service.cmd ≠ []) :
    (runIntervalCommand excl filt s now output .ok).status = .waiting := by
  unfold runIntervalCommand
  rw [if_neg hs]

/-- C5: For an interval service, a failed tick sets the status to
`failed` but never exits the ticking loop: the loop continues and a
subsequent successful tick sets the status back to `waiting`; the loop
exits exactly on an explicit stop signal, which sets status `stopped`
and clears the running flag. -/
theorem interval_failure_not_terminal (excl filt : Option (String → Bool))
    (st : ServiceState) (now now' : Nat) (output output' : String)
    (res : TickResult) (h : goFields st.service.cmd ≠ []) (hres : res ≠ .ok) :
    (intervalStep excl filt st now (.tick output res)).1.status = .failed ∧
    (intervalStep excl filt st now (.tick output res)).2 = true ∧
    (intervalStep excl filt
      (intervalStep excl filt st now (.tick output res)).1 now'
      (.tick output' .ok)).1.status = .waiting ∧
    (intervalStep excl filt st now IntervalEvent.stopSignal).1.status = .stopped ∧
    (intervalStep excl filt st now IntervalEvent.stopSignal).1.running = false ∧
    (∀ e, (intervalStep excl filt st now e).2 = false ↔ e = .stopSignal) := by
  have hfail : ∀ (o : String) (r : TickResult), r ≠ .ok →
      ∀ s : ServiceState, goFields s.service.cmd ≠ [] →
      (runIntervalCommand excl filt s now o r).status = .failed := by
    intro o r hr s hs
    unfold runIntervalCommand
    rw [if_neg hs]
    cases r with
    | ok => exact absurd rfl hr
    | exitFail c => rfl
    | otherFail => rfl
  refine ⟨hfail output res hres st h, rfl, ?_, rfl, rfl, ?_⟩
  · have h' : goFields (runIntervalCommand excl filt st now output res).service.cmd ≠ [] := by
      rw [runIntervalCommand_service]; exact h
    exact runIntervalCommand_ok_status excl filt now' output'
      (runIntervalCommand excl filt st now output res) h'
  · intro e
    cases e <;> simp [intervalStep]

/-- C5 witness: a concrete interval service whose first tick fails with
exit code 2 is marked failed, keeps ticking, and returns to waiting on
the next successful tick. -/
theorem interval_failure_not_terminal_witness :
    (intervalStep none none
      (initState "hc" ⟨".", "ping", 0, "white", "", .interval, 10, "", "", "", []⟩)
      4 (.tick "" (.exitFail 2))).1.status = .failed ∧
    (intervalStep none none
      (initState "hc" ⟨".", "ping", 0, "white", "", .interval, 10, "", "", "", []⟩)
      4 (.tick "" (.exitFail 2))).2 = true := by
  have h := interval_failure_not_terminal none none
    (initState "hc" ⟨".", "ping", 0, "white", "", .interval, 10, "", "", "", []⟩)
    4 5 "" "" (.exitFail 2) (by decide) (by decide)
  exact ⟨h.1, h.2.1⟩

/-- C8 (amended): `RestartService` for a known service synchronously
performs the stop effects and then a fixed 500 ms settle sleep in the
caller, and only then spawns the start asynchronously; the start is
never executed synchronously in the caller; for an unknown name nothing
happens at all.  (The original claim's "never blocks the caller beyond
issuing the stop" fails: the 500 ms settle delay runs synchronously in
the caller — see the counterexample.) -/
theorem restart_stop_settle_async_start (known : Bool) (t : ServiceType)
    (hasProc : Bool) (name : String) :
    (known = true →
      (restartServiceTrace known t hasProc name).1 =
        stopServiceEffects t hasProc name ++ [RunEffect.sleepMs 500] ∧
      (restartServiceTrace known t hasProc name).2 = [RunEffect.spawnStart name]) ∧
    (known = false → restartServiceTrace known t hasProc name = ([], [])) ∧
    RunEffect.spawnStart name ∉ (restartServiceTrace known t hasProc name).1 := by
  refine ⟨?_, ?_, ?_⟩
  · intro hk; subst hk; exact ⟨rfl, rfl⟩
  · intro hk; subst hk; rfl
  · cases known with
    | false => simp [restartServiceTrace]
    | true =>
      cases t <;> cases hasProc <;>
        simp [restartServiceTrace, stopServiceEffects]

/-- C8 witness: for a concrete known long-running service the caller's
synchronous trace is exactly stop (TERM, 100 ms grace, KILL) followed
by the 500 ms settle sleep, and the start is spawned asynchronously. -/
theorem restart_stop_settle_async_start_witness :
    (restartServiceTrace true .service true "web").1 =
      [RunEffect.termGroup "web", RunEffect.sleepMs 100,
       RunEffect.killGroup "web", RunEffect.sleepMs 500] ∧
    (restartServiceTrace true .service true "web").2 =
      [RunEffect.spawnStart "web"] :=
  (restart_stop_settle_async_start true .service true "web").1 rfl

/-- C8 counterexample: the claim "never blocks the caller beyond
issuing the stop; the caller's control returns once the stop has been
issued" is false: for a known interval service the caller's synchronous
trace is the stop signal followed by a 500 ms sleep, not the stop
signal alone. -/
theorem restart_blocks_for_settle_delay :
    (restartServiceTrace true .interval false "web").1 =
      [RunEffect.signalStopChan "web", RunEffect.sleepMs 500] ∧
    [RunEffect.signalStopChan "web", RunEffect.sleepMs 500] ≠
      [RunEffect.signalStopChan "web"] := by decide

/-- C2: An unknown service name in a start or restart request is
answered with the error discriminant, and the daemon state is left
completely unchanged with no effect on any service: no runner is
created or replaced, nothing is killed, started or restarted. -/
theorem unknown_service_request_rejected (portPid : Nat → Option Nat)
    (d : DaemonState) (reqS : StartRequest) (reqR : RestartRequest) :
    ((∃ n ∈ (if reqS.services = [] then d.config.defaults else reqS.services),
        lookupService d.config n = none) →
      (handleStart portPid d reqS).1 = d ∧
      (handleStart portPid d reqS).2.1 = [] ∧
      msgType (handleStart portPid d reqS).2.2 = "error") ∧
    ((∀ r, d.runner = some r → runnerHas r reqR.service = false) →
      (handleRestart d reqR).1 = d ∧
      (handleRestart d reqR).2.1 = [] ∧
      msgType (handleRestart d reqR).2.2 = "error") := by
  constructor
  · intro hex
    obtain ⟨n, hn, hnone⟩ := hex
    cases hfs : (if reqS.services = [] then d.config.defaults
        else reqS.services).find? (fun n => (lookupService d.config n).isNone) with
    | none =>
      exfalso
      have hno := List.find?_eq_none.mp hfs n hn
      rw [hnone] at hno
      simp at hno
    | some m =>
      refine ⟨?_, ?_, ?_⟩ <;> simp [handleStart, hfs, msgType]
  · intro hall
    cases hr : d.runner with
    | none => refine ⟨?_, ?_, ?_⟩ <;> simp [handleRestart, hr, msgType]
    | some r =>
      have hmiss := hall r hr
      refine ⟨?_, ?_, ?_⟩ <;> simp [handleRestart, hr, hmiss, msgType]

/-- C2 witness: a concrete daemon knowing only service "web" answers a
start request for "ghost" and a restart request for "ghost" with the
error discriminant, leaving its state unchanged. -/
theorem unknown_service_request_rejected_witness :
    (handleStart (fun _ => none)
      ⟨⟨[("web", ⟨".", "run", 3000, "blue", "", .dflt, 0, "", "", "", []⟩)],
        ["web"], "/proj"⟩, none⟩ ⟨["ghost"], false⟩).1 =
      ⟨⟨[("web", ⟨".", "run", 3000, "blue", "", .dflt, 0, "", "", "", []⟩)],
        ["web"], "/proj"⟩, none⟩ ∧
    msgType (handleStart (fun _ => none)
      ⟨⟨[("web", ⟨".", "run", 3000, "blue", "", .dflt, 0, "", "", "", []⟩)],
        ["web"], "/proj"⟩, none⟩ ⟨["ghost"], false⟩).2.2 = "error" ∧
    msgType (handleRestart
      ⟨⟨[("web", ⟨".", "run", 3000, "blue", "", .dflt, 0, "", "", "", []⟩)],
        ["web"], "/proj"⟩, none⟩ ⟨"ghost"⟩).2.2 = "error" := by
  have h := unknown_service_request_rejected (fun _ => none)
    ⟨⟨[("web", ⟨".", "run", 3000, "blue", "", .dflt, 0, "", "", "", []⟩)],
      ["web"], "/proj"⟩, none⟩ ⟨["ghost"], false⟩ ⟨"ghost"⟩
  have h1 := h.1 (by decide)
  have h2 := h.2 (fun r hr => by simp at hr)
  exact ⟨h1.1, h1.2.2, h2.2.2⟩

/-- C10: For every payload type, decoding an absent or zero-length
payload returns the type's zero value with no error, and a decode error
can arise only from a non-empty payload that the unmarshaller
rejects. -/
theorem parse_payload_empty_zero {T : Type} (zero : T)
    (unmarshal : String → Except String T) (m : WireMessage) :
    ((m.payload = none ∨ m.payload = some "") →
      parsePayload zero unmarshal m = .ok zero) ∧
    (∀ e, parsePayload zero unmarshal m = .error e →
      ∃ s, m.payload = some s ∧ s ≠ "" ∧ unmarshal s = .error e) := by
  constructor
  · rintro (h | h) <;> simp [parsePayload, h]
  · intro e he
    unfold parsePayload at he
    cases hp : m.payload with
    | none =>
      rw [hp] at he
      exact absurd he (by simp)
    | some s =>
      rw [hp] at he
      dsimp only [] at he
      by_cases hs : s = ""
      · rw [if_pos hs] at he
        exact absurd he (by simp)
      · rw [if_neg hs] at he
        exact ⟨s, rfl, hs, he⟩

/-- C10 witness: decoding the absent and the zero-length payload of a
concrete message yields the zero value 0 with no error. -/
theorem parse_payload_empty_zero_witness :
    parsePayload (0 : Nat) (fun _ => Except.error "bad") ⟨"start", none⟩ =
      Except.ok 0 ∧
    parsePayload (0 : Nat) (fun _ => Except.error "bad") ⟨"start", some ""⟩ =
      Except.ok 0 :=
  ⟨(parse_payload_empty_zero 0 (fun _ => Except.error "bad")
      ⟨"start", none⟩).1 (Or.inl rfl),
   (parse_payload_empty_zero 0 (fun _ => Except.error "bad")
      ⟨"start", some ""⟩).1 (Or.inr rfl)⟩

theorem simpleHash_lt_aux (l : List Char) :
    ∀ h : Nat, h < 4294967296 →
      l.foldl (fun h c => (h * 31 + c.toNat) % 4294967296) h < 4294967296 := by
  induction l with
  | nil => intro h hh; exact hh
  | cons c rest ih =>
    intro h _
    rw [List.foldl_cons]
    exact ih _ (Nat.mod_lt _ (by norm_num))

theorem simpleHash_lt (s : String) : simpleHash s < 4294967296 :=
  simpleHash_lt_aux s.data 0 (by norm_num)

theorem hexDigit_inj_fin :
    ∀ x y : Fin 16, hexDigit x.val = hexDigit y.val → x = y := by decide

theorem toHex8Digits_inj (a b : Nat) (ha : a < 4294967296)
    (hb : b < 4294967296) (h : toHex8Digits a = toHex8Digits b) : a = b := by
  unfold toHex8Digits at h
  simp only [List.cons.injEq, and_true] at h
  obtain ⟨h7, h6, h5, h4, h3, h2, h1, h0⟩ := h
  have e7 : a / 268435456 % 16 = b / 268435456 % 16 := by
    have := hexDigit_inj_fin ⟨a / 268435456 % 16, Nat.mod_lt _ (by norm_num)⟩
      ⟨b / 268435456 % 16, Nat.mod_lt _ (by norm_num)⟩ h7
    exact Fin.mk.injEq _ _ _ _ ▸ this
  have e6 : a / 16777216 % 16 = b / 16777216 % 16 := by
    have := hexDigit_inj_fin ⟨a / 16777216 % 16, Nat.mod_lt _ (by norm_num)⟩
      ⟨b / 16777216 % 16, Nat.mod_lt _ (by norm_num)⟩ h6
    exact Fin.mk.injEq _ _ _ _ ▸ this
  have e5 : a / 1048576 % 16 = b / 1048576 % 16 := by
    have := hexDigit_inj_fin ⟨a / 1048576 % 16, Nat.mod_lt _ (by norm_num)⟩
      ⟨b / 1048576 % 16, Nat.mod_lt _ (by norm_num)⟩ h5
    exact Fin.mk.injEq _ _ _ _ ▸ this
  have e4 : a / 65536 % 16 = b / 65536 % 16 := by
    have := hexDigit_inj_fin ⟨a / 65536 % 16, Nat.mod_lt _ (by norm_num)⟩
      ⟨b / 65536 % 16, Nat.mod_lt _ (by norm_num)⟩ h4
    exact Fin.mk.injEq _ _ _ _ ▸ this
  have e3 : a / 4096 % 16 = b / 4096 % 16 := by
    have := hexDigit_inj_fin ⟨a / 4096 % 16, Nat.mod_lt _ (by norm_num)⟩
      ⟨b / 4096 % 16, Nat.mod_lt _ (by norm_num)⟩ h3
    exact Fin.mk.injEq _ _ _ _ ▸ this
  have e2 : a / 256 % 16 = b / 256 % 16 := by
    have := hexDigit_inj_fin ⟨a / 256 % 16, Nat.mod_lt _ (by norm_num)⟩
      ⟨b / 256 % 16, Nat.mod_lt _ (by norm_num)⟩ h2
    exact Fin.mk.injEq _ _ _ _ ▸ this
  have e1 : a / 16 % 16 = b / 16 % 16 := by
    have := hexDigit_inj_fin ⟨a / 16 % 16, Nat.mod_lt _ (by norm_num)⟩
      ⟨b / 16 % 16, Nat.mod_lt _ (by norm_num)⟩ h1
    exact Fin.mk.injEq _ _ _ _ ▸ this
  have e0 : a % 16 = b % 16 := by
    have := hexDigit_inj_fin ⟨a % 16, Nat.mod_lt _ (by norm_num)⟩
      ⟨b % 16, Nat.mod_lt _ (by norm_num)⟩ h0
    exact Fin.mk.injEq _ _ _ _ ▸ this
  omega

theorem socketPath_hash_of_eq (xdg : Option String) (a b : String)
    (h : socketPath xdg a = socketPath xdg b) :
    simpleHash a = simpleHash b := by
  have hx : toHex8Digits (simpleHash a) = toHex8Digits (simpleHash b) := by
    cases xdg with
    | none =>
      have hd := congrArg String.data h
      simp only [socketPath, toHex8, String.data_append] at hd
      have h1 := List.append_cancel_right hd
      exact List.append_cancel_left h1
    | some dir =>
      have hd := congrArg String.data h
      simp only [socketPath, pathJoin, toHex8, String.data_append] at hd
      have h1 := List.append_cancel_left hd
      have h2 := List.append_cancel_right h1
      exact List.append_cancel_left h2
  exact toHex8Digits_inj _ _ (simpleHash_lt a) (simpleHash_lt b) hx

/-- C7 (amended): the socket path is a deterministic function of the
runtime directory and the configuration root, and for a fixed runtime
directory two roots receive the same socket path exactly when their
32-bit `simpleHash` values coincide.  In particular equal roots always
converge on the same path, but distinct roots with colliding hashes —
which exist, see the counterexample — share a socket path. -/
theorem socket_path_hash_determined (xdg : Option String) (a b : String) :
    socketPath xdg a = socketPath xdg b ↔ simpleHash a = simpleHash b := by
  constructor
  · exact socketPath_hash_of_eq xdg a b
  · intro h
    cases xdg <;> simp [socketPath, pathJoin, toHex8, toHex8Digits, h]

/-- C7 counterexample: the distinct configuration roots `"Aa"` and
`"BB"` hash to the same 32-bit value (2112) and therefore receive the
same socket path, refuting "any two distinct configuration-root paths
yield distinct socket paths". -/
theorem socket_path_collision :
    socketPath none "Aa" = socketPath none "BB" ∧ ("Aa" : String) ≠ "BB" := by
  decide

/-- C6 (amended): a missing or unreadable status file, or one whose
content trims to empty, leaves the static configuration values
untouched in the snapshot; content that starts with a brace and parses
as a JSON object overrides exactly the non-empty of its
icon/color/status/message fields for that one snapshot; and all other
non-empty content — a bare short string, but also brace-led content
that fails to parse as JSON — is truncated to 20 bytes and used as the
icon.  (The original claim's "content that fails to parse silently
falls back to the static values" is wrong: see the counterexample.) -/
theorem dynamic_status_overlay (static : Display) (content : String) :
    (applyOverlay static (readDynamicStatus none) = static) ∧
    (goTrimSpace content = "" →
      applyOverlay static (readDynamicStatus (some content)) = static) ∧
    (∀ ds, jsonUnmarshalDynamic (goTrimSpace content) = some ds →
      startsWithBrace (goTrimSpace content) = true →
      applyOverlay static (readDynamicStatus (some content)) =
        ⟨if ds.icon ≠ "" then ds.icon else static.icon,
         if ds.color ≠ "" then ds.color else static.color,
         if ds.status ≠ "" then ds.status else static.status,
         ds.message⟩) ∧
    (goTrimSpace content ≠ "" →
      (startsWithBrace (goTrimSpace content) = false ∨
       jsonUnmarshalDynamic (goTrimSpace content) = none) →
      readDynamicStatus (some content) =
        some ⟨goTruncate20 (goTrimSpace content), "", "", ""⟩) := by
  refine ⟨rfl, ?_, ?_, ?_⟩
  · intro h
    simp [readDynamicStatus, h, applyOverlay]
  · intro ds hj hb
    have hne : ¬ goTrimSpace content = "" := by
      intro he
      rw [he] at hb
      simp [startsWithBrace] at hb
    simp [readDynamicStatus, hne, hb, hj, applyOverlay]
  · intro hne hor
    rcases hor with hb | hj
    · simp [readDynamicStatus, hne, hb]
    · by_cases hb : startsWithBrace (goTrimSpace content) = true
      · simp [readDynamicStatus, hne, hb, hj]
      · simp only [Bool.not_eq_true] at hb
        simp [readDynamicStatus, hne, hb]

/-- C6 witness: a valid JSON status file overriding icon and status
(but not color or message) produces the expected snapshot overlay for
concrete static values. -/
theorem dynamic_status_overlay_witness :
    applyOverlay ⟨"I", "C", "S", ""⟩
      (readDynamicStatus (some "\x7b\"icon\": \"OK\", \"status\": \"busy\"\x7d")) =
      ⟨"OK", "C", "busy", ""⟩ := by
  have h := (dynamic_status_overlay ⟨"I", "C", "S", ""⟩
    "\x7b\"icon\": \"OK\", \"status\": \"busy\"\x7d").2.2.1
    ⟨"OK", "", "busy", ""⟩ (by decide) (by decide)
  exact h.trans (by decide)

/-- C6 counterexample: content `"\x7bbad"` starts with a brace but is
not valid JSON; the claim says the snapshot then silently keeps the
static values, yet the code stores the malformed text itself as the
dynamic icon, overriding the static icon `"I"`. -/
theorem malformed_json_status_not_static :
    readDynamicStatus (some "\x7bbad") = some ⟨"\x7bbad", "", "", ""⟩ ∧
    (applyOverlay ⟨"I", "C", "S", ""⟩
      (readDynamicStatus (some "\x7bbad"))).icon = "\x7bbad" ∧
    ("\x7bbad" : String) ≠ "I" := by decide

/-- C9 counterexample: the claim "stored lines contain no ANSI escape
sequences" fails.  The raw line `ESC [ ESC [ 0 m 0 m` is sanitized by a
single replace-all pass to `ESC [ 0 m`, which is stored and broadcast
although it is itself a complete ANSI escape sequence. -/
theorem ansi_not_fully_stripped :
    storedLine none none "svc" "\x1b[\x1b[0m0m" false 0 =
      some ⟨"svc", "\x1b[0m", 0, false⟩ ∧
    containsAnsiSeq ("\x1b[0m".data) = true := by decide

end Devir
